import Mathlib

/-!
Verification development for the BookingInquiryDashboard task queue and
ingestion pipeline.  The definitions below are a shallow embedding of the
Python source: timestamps are modelled as natural numbers (epoch seconds),
JSON field dictionaries as association lists, and the database as an
explicit store record that each handler threads through.  External
collaborators (the mail provider, the extraction engine, concurrent
transactions and injected commit failures) are parameters of the handler
functions, so every branch of the source's control flow is reachable in
the model.
-/

namespace BookingDash

/-! ### Python truthiness and extracted-data field maps

`extracted_data_dict` and `ExtractedData.data` are JSON objects mapping
field names to strings (or null).  `pyTruthy` models Python's truth test
on such a value (`if value`, `if not merged_data[key]`). -/

/-- A JSON field value: `none` models Python `None`, `some s` a string. -/
abbrev Val := Option String

/-- Python truthiness of a field value: `None` and `""` are falsy. -/
def pyTruthy : Val → Bool
  | none => false
  | some s => !s.isEmpty

/-- A Python dict of extracted fields, as an association list. -/
abbrev FieldMap := List (String × Val)

/-- Dict lookup: `m[k]` / `m.get(k)` (outer `none` = key absent). -/
def fmLookup : FieldMap → String → Option Val
  | [], _ => none
  | (k, v) :: rest, key => if k == key then some v else fmLookup rest key

/-- Dict assignment `m[k] = v`: replace in place, else append. -/
def fmSet : FieldMap → String → Val → FieldMap
  | [], key, v => [(key, v)]
  | (k, w) :: rest, key, v =>
      if k == key then (k, v) :: rest else (k, w) :: fmSet rest key v

/-- Truthiness of `m.get(k)`: key present with a non-empty value.
Its negation is Python's `key not in m or not m[key]`. -/
def getTruthy (m : FieldMap) (k : String) : Bool :=
  match fmLookup m k with
  | some v => pyTruthy v
  | none => false

/-- The field-merge loop of the ingestion handlers
(`app/background_tasks.py` lines 166-172 and 588-594, likewise
`tasks.py` lines 223-229): starting from a copy of the existing map and
`updated = False`, each newly extracted `(key, value)` overwrites the
accumulator only if `value` is truthy and the accumulator has no truthy
value at `key`; the Boolean records whether any write happened. -/
def mergeF (e n : FieldMap) : FieldMap × Bool :=
  n.foldl
    (fun acc kv =>
      if pyTruthy kv.2 && !(getTruthy acc.1 kv.1) then
        (fmSet acc.1 kv.1 kv.2, true)
      else acc)
    (e, false)

/-- The merged field map produced by the handlers' merge loop. -/
def mergeData (e n : FieldMap) : FieldMap := (mergeF e n).1

/-- The `updated` flag of the merge loop. -/
def mergeUpdated (e n : FieldMap) : Bool := (mergeF e n).2

/-- One iteration of the merge loop, tracking only the map. -/
def mergeStep (m : FieldMap) (kv : String × Val) : FieldMap :=
  if pyTruthy kv.2 && !(getTruthy m kv.1) then fmSet m kv.1 kv.2 else m

/-- The essential-field list (`ESSENTIAL_EXTRACTION_FIELDS` default,
`app/background_tasks.py` line 91, `tasks.py` line 24). -/
def essential_fields : List String :=
  ["first_name", "last_name", "travel_start_date", "travel_end_date", "trip_cost"]

/-- `[field for field in essential_fields if not d.get(field)]`. -/
def missingFieldsOf (d : FieldMap) : List String :=
  essential_fields.filter (fun f => !(getTruthy d f))

/-- `"Incomplete" if missing_fields_list else "Complete"`. -/
def validationStatusOf (d : FieldMap) : String :=
  if (missingFieldsOf d).isEmpty then "Complete" else "Incomplete"

/-- `",".join(missing) if missing else None` for the `missing_fields` column. -/
def missingFieldsCol (d : FieldMap) : Option String :=
  if (missingFieldsOf d).isEmpty then none
  else some (String.intercalate "," (missingFieldsOf d))

/-! ### The task queue table and the worker loop

`PendingTask` embeds the `pending_tasks` row (`app/models.py` lines
138-152); the claiming query and the retry policy follow
`postgres_worker.py` (`process_pending_tasks`).  `DateTime` columns are
epoch seconds. -/

/-- A row of `pending_tasks`. -/
structure PendingTask where
  id : Nat
  task_type : String
  status : String
  scheduled_for : Nat
  attempts : Nat
  last_error : Option String
  processed_at : Option Nat
deriving DecidableEq, Repr

/-- The claiming query's WHERE clause:
`status = 'pending' AND scheduled_for <= :now`. -/
def taskDue (now : Nat) (t : PendingTask) : Bool :=
  t.status == "pending" && decide (t.scheduled_for ≤ now)

/-- The claiming query's `ORDER BY scheduled_for ASC, id ASC`. -/
def claimKeyLt (a b : PendingTask) : Bool :=
  decide (a.scheduled_for < b.scheduled_for) ||
    (a.scheduled_for == b.scheduled_for && decide (a.id < b.id))

/-- `SELECT id FROM pending_tasks WHERE status = 'pending' AND
scheduled_for <= :now ORDER BY scheduled_for ASC, id ASC LIMIT 1`:
the minimal due pending row under `claimKeyLt`, if any
(`postgres_worker.py` lines 73-80). -/
def claimSelect (now : Nat) : List PendingTask → Option PendingTask
  | [] => none
  | t :: rest =>
      if taskDue now t then
        match claimSelect now rest with
        | none => some t
        | some m => if claimKeyLt t m then some t else some m
      else claimSelect now rest

/-- The committed claim update (`postgres_worker.py` lines 88-90):
`status = 'processing'; attempts += 1; commit`. -/
def claimUpdate (t : PendingTask) : PendingTask :=
  { t with status := "processing", attempts := t.attempts + 1 }

/-- Writing the committed claim update back to the store: the row whose
primary key was selected becomes `processing` with `attempts + 1`. -/
def markClaimed (store : List PendingTask) (tid : Nat) : List PendingTask :=
  store.map (fun u => if u.id == tid then claimUpdate u else u)

/-- One atomic claim by one worker.  `FOR UPDATE SKIP LOCKED` makes the
selected row invisible to every other claimant from the `SELECT` until
the `COMMIT` of the `processing` update, so each claim is one atomic
step of the shared store; a round of concurrent claimants is an
arbitrary interleaving, i.e. a sequence of these steps. -/
def applyClaim (now : Nat) (store : List PendingTask) :
    Option PendingTask × List PendingTask :=
  match claimSelect now store with
  | none => (none, store)
  | some t => (some t, markClaimed store t.id)

/-- `n` worker loops each performing one claim against the shared store:
returns the claimed tasks in claim order and the final store. -/
def claimRound (now : Nat) : Nat → List PendingTask → List PendingTask × List PendingTask
  | 0, store => ([], store)
  | n + 1, store =>
      match claimSelect now store with
      | none => ([], store)
      | some t =>
          let r := claimRound now n (markClaimed store t.id)
          (t :: r.1, r.2)

/-- Number of due pending tasks in the store. -/
def countDue (now : Nat) (store : List PendingTask) : Nat :=
  (store.filter (taskDue now)).length

/-- `PG_WORKER_MAX_RETRIES` default (`postgres_worker.py` line 28). -/
def MAX_TASK_RETRIES : Nat := 3

/-- `PG_WORKER_RETRY_BACKOFF_BASE` default (`postgres_worker.py` line 29). -/
def RETRY_BACKOFF_BASE_SECONDS : Nat := 60

/-- The worker loop's handler-exception branch (`postgres_worker.py`
lines 103-114): record the error; if `attempts >= MAX_TASK_RETRIES` mark
the task `failed` (leaving `scheduled_for` untouched), else revert it to
`pending` with `scheduled_for = now + base * 2 ** (attempts - 1)`. -/
def onTaskException (now : Nat) (err : String) (t : PendingTask) : PendingTask :=
  let t1 := { t with last_error := some err }
  if MAX_TASK_RETRIES ≤ t1.attempts then
    { t1 with status := "failed" }
  else
    { t1 with
      status := "pending",
      scheduled_for := now + RETRY_BACKOFF_BASE_SECONDS * 2 ^ (t1.attempts - 1) }

/-- The worker loop's success branch (`postgres_worker.py` lines 99-101). -/
def onTaskSuccess (now : Nat) (t : PendingTask) : PendingTask :=
  { t with status := "success", processed_at := some now, last_error := none }

/-! ### The task dispatcher and the WhatsApp webhook's enqueue -/

/-- Where `handle_task` routes a task. -/
inductive DispatchTarget where
  | processSingleEmail
  | pollAllNewEmails
  | newWhatsappMessage
  | unknownTaskTypeError (message : String)
deriving DecidableEq, Repr

/-- The dispatcher `handle_task` (`app/background_tasks.py` lines
637-670): a chain of string comparisons on `task_type`; any other value
raises `ValueError(f"Unknown task type: {task_type}")`. -/
def handle_task (task_type : String) : DispatchTarget :=
  if task_type == "process_single_email" then .processSingleEmail
  else if task_type == "poll_all_new_emails" then .pollAllNewEmails
  else if task_type == "new_whatsapp_message" then .newWhatsappMessage
  else .unknownTaskTypeError ("Unknown task type: " ++ task_type)

/-- The `task_type` the Green API webhook stores on the task it enqueues
(`app/whatsapp_routes.py` line 195). -/
def greenapi_webhook_task_type : String := "process_whatsapp_message"

/-! ### The poll triggers and their checkpoints -/

/-- A provider message summary as the pollers see it: `id`,
`receivedDateTime` (parsed; `none` when missing or unparseable),
`subject` and `bodyPreview`. -/
structure EmailSummary where
  id : Option String
  subject : Option String
  bodyPreview : Option String
  receivedAt : Option Nat
deriving DecidableEq, Repr

/-- Outcome of one `poll_new_emails` cycle. -/
structure PollResult where
  checkpoint : Option Nat
  raised : Bool
  enqueued : List String
deriving DecidableEq, Repr

/-- The Postgres-queue poll cycle `poll_new_emails`
(`app/background_tasks.py` lines 260-348).  `lastChecked` is the global
`last_checked_timestamp` before the cycle; `now` is
`current_check_time = datetime.now(timezone.utc)` captured before the
fetch (line 287); `fetchResult` is `ms_fetch_new_emails_since`'s answer
(`none` models a raised exception).  On success one
`process_single_email` task is enqueued per summary that has an id, and
the checkpoint is set to `current_check_time` (line 339); on failure the
checkpoint is left untouched and the exception is re-raised (lines
343-348). -/
def poll_new_emails (lastChecked : Option Nat) (now : Nat)
    (fetchResult : Option (List EmailSummary)) : PollResult :=
  match fetchResult with
  | none => { checkpoint := lastChecked, raised := true, enqueued := [] }
  | some batch =>
      { checkpoint := some now
        raised := false
        enqueued := batch.filterMap (fun s => s.id) }

/-- Maximum `received_at` over a batch of summaries (`none` when no
summary carries a parseable timestamp). -/
def maxReceivedAt : List EmailSummary → Option Nat
  | [] => none
  | s :: rest =>
      match s.receivedAt, maxReceivedAt rest with
      | none, a => a
      | some r, none => some r
      | some r, some a => some (max r a)

/-- The Celery poll cycle's checkpoint logic (`tasks.py` lines 345-433):
on a fetch exception the function returns without touching
`global_last_checked_timestamp`; otherwise `latest_processed_timestamp`
starts at the previous checkpoint, is raised past each summary's
parseable `receivedDateTime`, and the checkpoint advances only if the
result exceeds the previous value. -/
def poll_and_dispatch_checkpoint (prev : Nat)
    (fetchResult : Option (List EmailSummary)) : Nat :=
  match fetchResult with
  | none => prev
  | some batch =>
      batch.foldl
        (fun latest s =>
          match s.receivedAt with
          | some r => if latest < r then r else latest
          | none => latest)
        prev

/-! ### The relational store and the email ingestion handler

`Store` embeds the tables the ingestion handlers touch (`app/models.py`):
`inquiries`, `emails`, `extracted_data`.  `nextInquiryId` models the
serial primary key handed out by `db.session.flush()`.  Attachment
metadata rows are not modelled; the attachment fetch appears in the
effect trace. -/

/-- A row of `inquiries` (`app/models.py` lines 18-29).  The schema
declares `primary_email_address` with `nullable=False, index=True` and
no unique constraint (line 22). -/
structure InquiryRow where
  id : Nat
  primary_email_address : String
  status : String
  updated_at : Option Nat
deriving DecidableEq, Repr

/-- A row of `emails` (`app/models.py` lines 63-77); `graph_id` is the
primary key. -/
structure EmailRow where
  graph_id : String
  subject : Option String
  sender_address : Option String
  sender_name : Option String
  intent : Option String
  inquiry_id : Option Nat
  processing_status : String
  processing_error : Option String
  processed_at : Option Nat
  received_at : Option Nat
deriving DecidableEq, Repr

/-- A row of `extracted_data` (`app/models.py` lines 82-95);
`inquiry_id` carries the unique constraint. -/
structure ExtractedDataRow where
  inquiry_id : Nat
  data : FieldMap
  extraction_source : Option String
  validation_status : String
  missing_fields : Option String
deriving DecidableEq, Repr

/-- The committed database state visible to a handler. -/
structure Store where
  inquiries : List InquiryRow
  emails : List EmailRow
  extracted : List ExtractedDataRow
  nextInquiryId : Nat
deriving DecidableEq, Repr

/-- Schema metadata of one column, as declared in `app/models.py`. -/
structure ColumnSpec where
  primaryKey : Bool
  unique : Bool
  nullable : Bool
  indexed : Bool
deriving DecidableEq, Repr

/-- `Inquiry.primary_email_address = db.Column(db.String(120),
nullable=False, index=True)` (`app/models.py` line 22): indexed, not
unique. -/
def inquiries_primary_email_address_col : ColumnSpec :=
  { primaryKey := false, unique := false, nullable := false, indexed := true }

/-- `db.session.get(Email, graph_id) is not None`: an `emails` row with
this primary key exists. -/
def emailExists (st : Store) (gid : String) : Bool :=
  st.emails.any (fun e => e.graph_id == gid)

/-- Number of `emails` rows carrying a given `graph_id`. -/
def countEmails (st : Store) (gid : String) : Nat :=
  (st.emails.filter (fun e => e.graph_id == gid)).length

/-- Number of `inquiries` rows carrying a given `primary_email_address`. -/
def countInquiriesFor (st : Store) (addr : String) : Nat :=
  (st.inquiries.filter (fun i => i.primary_email_address == addr)).length

/-- The customer resolver shared by the handlers
(`app/background_tasks.py` lines 118-127 for email with `newStatus =
"new"`, lines 507-518 for WhatsApp with `newStatus = "new_whatsapp"`):
look the Inquiry up by `primary_email_address`; if absent, create one
and flush to obtain its id. -/
def resolveInquiry (newStatus : String) (st : Store) (addr : String) :
    InquiryRow × Store :=
  match st.inquiries.find? (fun i => i.primary_email_address == addr) with
  | some inq => (inq, st)
  | none =>
      let inq : InquiryRow :=
        { id := st.nextInquiryId, primary_email_address := addr,
          status := newStatus, updated_at := none }
      (inq,
        { st with
          inquiries := st.inquiries ++ [inq],
          nextInquiryId := st.nextInquiryId + 1 })

/-- Sequentially resolving an inquiry for each identity in a list. -/
def resolveAll (newStatus : String) (st : Store) (addrs : List String) : Store :=
  addrs.foldl (fun s a => (resolveInquiry newStatus s a).2) st

/-- The fetched message detail (`ms_fetch_email_details` response):
body content and the sender's address and name, each possibly absent. -/
structure EmailDetails where
  bodyContent : String
  senderAddress : Option String
  senderName : Option String
deriving DecidableEq, Repr

/-- An external call performed by the handler, in order. -/
inductive Effect where
  | fetchDetails (graphId : String)
  | extractData
  | fetchAttachments (graphId : String)
deriving DecidableEq, Repr

/-- What the handler hands back to the worker loop. -/
inductive HandlerResult where
  | success (inquiryId : Option Nat)
  | skipped (message : String)
  | raised (message : String)
deriving DecidableEq, Repr

/-- Result, committed store, and external-call trace of one handler run. -/
structure HandlerOutcome where
  result : HandlerResult
  store : Store
  effects : List Effect
deriving DecidableEq, Repr

/-- The ExtractedData create-or-merge block of the email handler
(`app/background_tasks.py` lines 152-181): when an Inquiry was
resolved, create its ExtractedData row from the freshly extracted
fields, or merge into the existing row — rewriting the row's data,
validation status, missing-fields column and source only when the
merge loop's `updated` flag is set. -/
def upsertExtracted (st : Store) (inquiryOpt : Option InquiryRow)
    (extractedDict : FieldMap) (source : Option String) : Store :=
  match inquiryOpt with
  | none => st
  | some inq =>
      match st.extracted.find? (fun x => x.inquiry_id == inq.id) with
      | none =>
          { st with
            extracted := st.extracted ++
              [{ inquiry_id := inq.id, data := extractedDict,
                 extraction_source := source,
                 validation_status := validationStatusOf extractedDict,
                 missing_fields := missingFieldsCol extractedDict }] }
      | some xd =>
          if mergeUpdated xd.data extractedDict then
            { st with
              extracted := st.extracted.map (fun x =>
                if x.inquiry_id == inq.id then
                  { x with
                    data := mergeData xd.data extractedDict,
                    validation_status :=
                      validationStatusOf (mergeData xd.data extractedDict),
                    missing_fields :=
                      missingFieldsCol (mergeData xd.data extractedDict),
                    extraction_source := source }
                else x) }
          else st

/-- The handler's mark-failed-and-commit fallback, shared by the
IntegrityError branch (`app/background_tasks.py` lines 225-234) and the
generic database-error branch (lines 240-253): after the rollback, add
the Email row back with `processing_status = 'failed'` and commit just
that.  The inner commit succeeds only when the row's `inquiry_id` does
not reference a rolled-back (hence nonexistent) Inquiry; otherwise the
foreign key makes it fail too and it is rolled back (lines 254-256),
leaving the store unchanged. -/
def markFailedCommit (st : Store) (failRow : EmailRow) : Store :=
  match failRow.inquiry_id with
  | none => { st with emails := st.emails ++ [failRow] }
  | some iid =>
      if st.inquiries.any (fun i => i.id == iid) then
        { st with emails := st.emails ++ [failRow] }
      else st

/-- The persistence phase of `handle_process_single_email`
(`app/background_tasks.py` lines 114-257), entered after the
idempotency check found no row for `gid`.  The resolver, the new
`emails` row, the `extracted_data` create-or-merge and the finalize
writes build the transaction's candidate state; the commit (line 208)
is then subject to two injected outcomes:

* `raced = some r`: a concurrent transaction committed row `r` between
  our check and our commit, so the commit raises `IntegrityError`
  (handled at lines 212-235): the session rolls back to the shared
  state (now containing `r`); if an `emails` row with our `graph_id`
  exists there the handler returns a skipped result, otherwise it
  marks our row failed in a second commit and re-raises.
* `commitRaises = true`: the commit raises a generic database error
  (handled at lines 237-257): the session rolls back, then a second
  commit marks our row `failed`; that inner commit itself succeeds only
  when the row's `inquiry_id` does not dangle (a freshly flushed
  Inquiry was rolled back with the transaction), else it too is rolled
  back; the original exception is re-raised either way. -/
def emailPersist (st : Store) (now : Nat) (gid : String)
    (summary : EmailSummary) (det : EmailDetails) (intent : String)
    (extraction : FieldMap × Option String) (raced : Option EmailRow)
    (commitRaises : Bool) (effs : List Effect) : HandlerOutcome :=
  let extractedDict := extraction.1
  let source := extraction.2
  let resolved : Option InquiryRow × Store :=
    match det.senderAddress with
    | some addr =>
        let r := resolveInquiry "new" st addr
        (some r.1, r.2)
    | none => (none, st)
  let inquiryOpt := resolved.1
  let st1 := resolved.2
  let emailRow : EmailRow :=
    { graph_id := gid, subject := summary.subject,
      sender_address := det.senderAddress, sender_name := det.senderName,
      intent := some intent, inquiry_id := inquiryOpt.map (fun i => i.id),
      processing_status := "processing", processing_error := none,
      processed_at := none, received_at := summary.receivedAt }
  let st2 : Store := { st1 with emails := st1.emails ++ [emailRow] }
  let st3 : Store := upsertExtracted st2 inquiryOpt extractedDict source
  let st4 : Store :=
    { st3 with
      emails := st3.emails.map (fun e =>
        if e.graph_id == gid then
          { e with processing_status := "processed",
                   processed_at := some now, processing_error := none }
        else e),
      inquiries :=
        match inquiryOpt with
        | none => st3.inquiries
        | some inq =>
            st3.inquiries.map (fun i =>
              if i.id == inq.id then { i with updated_at := some now } else i) }
  match raced with
  | some r =>
      let visible := { st with emails := st.emails ++ [r] }
      if emailExists visible gid then
        { result := .skipped "Duplicate entry detected (IntegrityError)",
          store := visible, effects := effs }
      else
        { result := .raised "IntegrityError",
          store := markFailedCommit visible
            { emailRow with
              processing_status := "failed",
              processing_error := some "IntegrityError" },
          effects := effs }
  | none =>
      if commitRaises then
        { result := .raised "DB Error",
          store := markFailedCommit st
            { emailRow with
              processing_status := "failed",
              processing_error := some "DB Error",
              processed_at := some now },
          effects := effs }
      else
        { result := .success (inquiryOpt.map (fun i => i.id)),
          store := st4, effects := effs }

/-- The email ingestion handler `handle_process_single_email`
(`app/background_tasks.py` lines 33-257).  Payload validation first;
then the provider fetch, extraction and attachment listing (lines
74-102, visible in the effect trace; `details = none` models a fetch
failure, which re-raises); only then the idempotency check against the
`emails` primary key (lines 106-112), which short-circuits to a skipped
result; finally the persistence phase. -/
def handle_process_single_email (st : Store) (now : Nat)
    (summary : EmailSummary) (intent : String)
    (details : Option EmailDetails) (extraction : FieldMap × Option String)
    (raced : Option EmailRow) (commitRaises : Bool) : HandlerOutcome :=
  match summary.id with
  | none => { result := .raised "Email summary missing ID", store := st, effects := [] }
  | some gid =>
      match details with
      | none =>
          { result := .raised ("Failed to fetch full details for email " ++ gid),
            store := st, effects := [.fetchDetails gid] }
      | some det =>
          let effs : List Effect := [.fetchDetails gid, .extractData, .fetchAttachments gid]
          if emailExists st gid then
            { result := .skipped "Email already processed or processing",
              store := st, effects := effs }
          else
            emailPersist st now gid summary det intent extraction raced commitRaises effs

/-! ## Lemmas about field maps and the merge loop -/

theorem fmLookup_fmSet_self (m : FieldMap) (k : String) (v : Val) :
    fmLookup (fmSet m k v) k = some v := by
  induction m with
  | nil => simp [fmSet, fmLookup]
  | cons kv rest ih =>
      by_cases h : kv.1 = k
      · simp [fmSet, fmLookup, h]
      · simp only [fmSet, fmLookup]
        rw [if_neg (by simpa using h), fmLookup, if_neg (by simpa using h)]
        exact ih

theorem fmLookup_fmSet_ne (m : FieldMap) (k k' : String) (v : Val) (h : k ≠ k') :
    fmLookup (fmSet m k v) k' = fmLookup m k' := by
  induction m with
  | nil =>
      simp only [fmSet, fmLookup]
      rw [if_neg (by simpa using h)]
  | cons kv rest ih =>
      simp only [fmSet]
      by_cases hk : kv.1 = k
      · rw [if_pos (by simpa using hk)]
        simp only [fmLookup]
        have hne : ¬((kv.1 == k') = true) := by
          simp only [beq_iff_eq, hk]
          exact h
        rw [if_neg hne, if_neg hne]
      · rw [if_neg (by simpa using hk)]
        simp only [fmLookup]
        by_cases hk' : kv.1 = k'
        · rw [if_pos (by simpa using hk'), if_pos (by simpa using hk')]
        · rw [if_neg (by simpa using hk'), if_neg (by simpa using hk')]
          exact ih

theorem fmLookup_eq_none_of_not_mem (m : FieldMap) (k : String)
    (h : k ∉ m.map Prod.fst) : fmLookup m k = none := by
  induction m with
  | nil => rfl
  | cons kv rest ih =>
      simp only [List.map_cons, List.mem_cons, not_or] at h
      simp only [fmLookup]
      rw [if_neg (by simpa using fun e => h.1 e.symm)]
      exact ih h.2

theorem getTruthy_congr {m m' : FieldMap} {k : String}
    (h : fmLookup m k = fmLookup m' k) : getTruthy m k = getTruthy m' k := by
  simp [getTruthy, h]

theorem mergeData_eq_foldl (e n : FieldMap) :
    mergeData e n = n.foldl mergeStep e := by
  unfold mergeData mergeF
  generalize false = b
  induction n generalizing e b with
  | nil => rfl
  | cons kv rest ih =>
      simp only [List.foldl_cons]
      split
      next h =>
        rw [ih]
        congr 1
        simp [mergeStep, h]
      next h =>
        rw [ih]
        congr 1
        simp [mergeStep, h]

/-- Claim C2: in the ingestion handlers' field merge, the result at a
key `k` is the newly extracted value exactly when that value is
non-empty and the existing map has no non-empty value at `k`
(absent or empty); otherwise the existing entry (or absence) at `k`
is kept, so a previously populated field is never overwritten. -/
theorem merge_first_nonempty_wins (e n : FieldMap) (k : String)
    (h : (n.map Prod.fst).Nodup) :
    fmLookup (mergeData e n) k =
      if getTruthy n k && !(getTruthy e k) then fmLookup n k
      else fmLookup e k := by
  rw [mergeData_eq_foldl]
  induction n generalizing e with
  | nil =>
      simp [getTruthy, fmLookup]
  | cons kv rest ih =>
      simp only [List.map_cons, List.nodup_cons] at h
      obtain ⟨hk, hrest⟩ := h
      simp only [List.foldl_cons]
      rw [ih (mergeStep e kv) hrest]
      by_cases hkk : kv.1 = k
      · subst hkk
        have hnone : fmLookup rest kv.1 = none :=
          fmLookup_eq_none_of_not_mem rest kv.1 hk
        have hrt : getTruthy rest kv.1 = false := by simp [getTruthy, hnone]
        have hlk : fmLookup (kv :: rest) kv.1 = some kv.2 := by
          simp [fmLookup]
        have hgt : getTruthy (kv :: rest) kv.1 = pyTruthy kv.2 := by
          simp [getTruthy, hlk]
        rw [hrt, hlk, hgt]
        simp only [Bool.false_and, Bool.false_eq_true, if_false]
        by_cases hc : (pyTruthy kv.2 && !(getTruthy e kv.1)) = true
        · rw [if_pos hc]
          simp only [mergeStep, if_pos hc]
          exact fmLookup_fmSet_self e kv.1 kv.2
        · rw [if_neg hc]
          simp only [mergeStep, if_neg hc]
      · have hlk : fmLookup (kv :: rest) k = fmLookup rest k := by
          simp only [fmLookup]
          rw [if_neg (by simpa using hkk)]
        have hgt : getTruthy (kv :: rest) k = getTruthy rest k :=
          getTruthy_congr hlk
        have hms : fmLookup (mergeStep e kv) k = fmLookup e k := by
          simp only [mergeStep]
          by_cases hc : (pyTruthy kv.2 && !(getTruthy e kv.1)) = true
          · rw [if_pos hc]; exact fmLookup_fmSet_ne e kv.1 k kv.2 hkk
          · rw [if_neg hc]
        have hmt : getTruthy (mergeStep e kv) k = getTruthy e k :=
          getTruthy_congr hms
        rw [hlk, hgt, hmt, hms]

/-- Witness for `merge_first_nonempty_wins` at the spec's example:
`E = {first_name: "Jane"}`, `N = {first_name: "John", last_name:
"Doe"}` merge to `{first_name: "Jane", last_name: "Doe"}`. -/
theorem merge_first_nonempty_wins_witness :
    ((([("first_name", some "John"), ("last_name", some "Doe")] : FieldMap).map
        Prod.fst).Nodup) ∧
    fmLookup (mergeData [("first_name", some "Jane")]
        [("first_name", some "John"), ("last_name", some "Doe")]) "first_name" =
      some (some "Jane") ∧
    fmLookup (mergeData [("first_name", some "Jane")]
        [("first_name", some "John"), ("last_name", some "Doe")]) "last_name" =
      some (some "Doe") := by
  refine ⟨by decide, ?_, ?_⟩
  · exact (merge_first_nonempty_wins [("first_name", some "Jane")]
      [("first_name", some "John"), ("last_name", some "Doe")] "first_name"
      (by decide)).trans (by decide)
  · exact (merge_first_nonempty_wins [("first_name", some "Jane")]
      [("first_name", some "John"), ("last_name", some "Doe")] "last_name"
      (by decide)).trans (by decide)

/-! ## The worker loop's retry/backoff policy -/

/-- Claim C3: with `max_retries = 3` and base backoff 60s, a handler
exception makes the worker mark the claimed task `failed` (leaving
`scheduled_for` untouched) when its incremented attempts counter has
reached 3, and otherwise revert it to `pending` scheduled
`60 * 2 ^ (attempts - 1)` seconds from now; so the first failure
reschedules 60s later, the second 120s later, and the third is
terminal. -/
theorem worker_retry_backoff_schedule (t : PendingTask) (now n1 n2 n3 : Nat)
    (e : String) :
    (if 3 ≤ t.attempts + 1 then
        (onTaskException now e (claimUpdate t)).status = "failed" ∧
        (onTaskException now e (claimUpdate t)).scheduled_for = t.scheduled_for
     else
        (onTaskException now e (claimUpdate t)).status = "pending" ∧
        (onTaskException now e (claimUpdate t)).scheduled_for =
          now + 60 * 2 ^ t.attempts) ∧
    ((onTaskException n1 e (claimUpdate { t with attempts := 0 })).status =
        "pending" ∧
      (onTaskException n1 e (claimUpdate { t with attempts := 0 })).scheduled_for =
        n1 + 60 ∧
      (onTaskException n2 e
          (claimUpdate (onTaskException n1 e
            (claimUpdate { t with attempts := 0 })))).status = "pending" ∧
      (onTaskException n2 e
          (claimUpdate (onTaskException n1 e
            (claimUpdate { t with attempts := 0 })))).scheduled_for = n2 + 120 ∧
      (onTaskException n3 e
          (claimUpdate (onTaskException n2 e
            (claimUpdate (onTaskException n1 e
              (claimUpdate { t with attempts := 0 })))))).status = "failed" ∧
      (onTaskException n3 e
          (claimUpdate (onTaskException n2 e
            (claimUpdate (onTaskException n1 e
              (claimUpdate { t with attempts := 0 })))))).scheduled_for =
        (onTaskException n2 e
          (claimUpdate (onTaskException n1 e
            (claimUpdate { t with attempts := 0 })))).scheduled_for) := by
  constructor
  · by_cases h : 3 ≤ t.attempts + 1
    · rw [if_pos h]
      simp [onTaskException, claimUpdate, MAX_TASK_RETRIES, h]
    · rw [if_neg h]
      constructor
      · simp [onTaskException, claimUpdate, MAX_TASK_RETRIES, h]
      · simp [onTaskException, claimUpdate, MAX_TASK_RETRIES,
          RETRY_BACKOFF_BASE_SECONDS, h]
  · simp [onTaskException, claimUpdate, MAX_TASK_RETRIES,
      RETRY_BACKOFF_BASE_SECONDS]

/-! ## The dispatcher and the WhatsApp webhook's task type -/

/-- Claim C6 (code bug): the Green API webhook enqueues its tasks with
`task_type = 'process_whatsapp_message'`, but the dispatcher
`handle_task` only routes `'new_whatsapp_message'` to the WhatsApp
ingestion handler, so every webhook-enqueued task takes the
unknown-task-type error branch (`ValueError`).  The repository's own
`fix-tasks` CLI command (`app/__init__.py` lines 275-317) calls
`'process_whatsapp_message'` the "old" type of "stuck" tasks and
rewrites it to `'new_whatsapp_message'` so the worker can process
them, confirming the mismatch is a slip. -/
theorem whatsapp_task_type_mismatch :
    handle_task greenapi_webhook_task_type =
      .unknownTaskTypeError "Unknown task type: process_whatsapp_message" ∧
    handle_task greenapi_webhook_task_type ≠ .newWhatsappMessage ∧
    handle_task "new_whatsapp_message" = .newWhatsappMessage := by
  refine ⟨by decide, by decide, by decide⟩

/-! ## The poll triggers' checkpoints -/

theorem foldl_latest_eq_max (batch : List EmailSummary) : ∀ prev : Nat,
    batch.foldl
      (fun latest s =>
        match s.receivedAt with
        | some r => if latest < r then r else latest
        | none => latest)
      prev = max prev ((maxReceivedAt batch).getD prev) := by
  induction batch with
  | nil => intro prev; simp [maxReceivedAt]
  | cons s rest ih =>
      intro prev
      simp only [List.foldl_cons]
      cases hr : s.receivedAt with
      | none =>
          rw [ih]
          simp only [maxReceivedAt, hr]
      | some r =>
          rw [ih]
          simp only [maxReceivedAt, hr]
          cases hrest : maxReceivedAt rest with
          | none =>
              simp only [Option.getD_none, Option.getD_some, Nat.max_def]
              split_ifs <;> omega
          | some a =>
              simp only [Option.getD_some, Nat.max_def]
              split_ifs <;> omega

/-- Counterexample to claim C7 as stated: a successful poll cycle of
`poll_new_emails` with previous checkpoint 10, wall clock 50 and a
batch whose only summary has `received_at = 100` persists checkpoint
50 (the wall-clock time captured before the fetch), not the batch's
maximum `received_at` 100. -/
theorem poll_checkpoint_counterexample :
    (poll_new_emails (some 10) 50
        (some [{ id := some "m1", subject := none, bodyPreview := none,
                 receivedAt := some 100 }])).checkpoint = some 50 ∧
    maxReceivedAt [{ id := some "m1", subject := none, bodyPreview := none,
                     receivedAt := some 100 }] = some 100 ∧
    (poll_new_emails (some 10) 50
        (some [{ id := some "m1", subject := none, bodyPreview := none,
                 receivedAt := some 100 }])).checkpoint ≠
      maxReceivedAt [{ id := some "m1", subject := none, bodyPreview := none,
                       receivedAt := some 100 }] := by
  refine ⟨rfl, rfl, by decide⟩

/-- Claim C7 (amended): on a provider-fetch exception neither poll
cycle advances its checkpoint (it equals the checkpoint before the
cycle, and `poll_new_emails` re-raises); on success `poll_new_emails`
sets the checkpoint to the wall-clock time captured before the fetch,
while the Celery poller `poll_and_dispatch_emails` advances it to the
maximum of the previous checkpoint and the batch's parseable
`received_at` timestamps — neither equals the batch's maximum
`received_at` in general. -/
theorem poll_checkpoint_semantics (prev now : Nat) (batch : List EmailSummary) :
    (poll_new_emails (some prev) now none).checkpoint = some prev ∧
    (poll_new_emails (some prev) now none).raised = true ∧
    (poll_new_emails (some prev) now (some batch)).checkpoint = some now ∧
    poll_and_dispatch_checkpoint prev none = prev ∧
    poll_and_dispatch_checkpoint prev (some batch) =
      max prev ((maxReceivedAt batch).getD prev) := by
  refine ⟨rfl, rfl, rfl, rfl, ?_⟩
  simpa [poll_and_dispatch_checkpoint] using foldl_latest_eq_max batch prev

/-! ## Inquiry identity: schema and sequential resolver -/

/-- Counterexample to claim C9 as stated: the data model does not keep
the primary identity unique — `inquiries.primary_email_address` is
declared `nullable=False, index=True` with no unique constraint
(`app/models.py` line 22). -/
theorem inquiry_identity_not_unique_in_schema :
    inquiries_primary_email_address_col.unique = false ∧
    inquiries_primary_email_address_col.indexed = true ∧
    inquiries_primary_email_address_col.nullable = false := by
  decide

theorem countInquiriesFor_resolve_ne (ns : String) (st : Store) (a addr : String)
    (h : (a == addr) = false) :
    countInquiriesFor (resolveInquiry ns st a).2 addr = countInquiriesFor st addr := by
  unfold resolveInquiry
  cases hf : st.inquiries.find? (fun i => i.primary_email_address == a) with
  | some inq => rfl
  | none =>
      simp [countInquiriesFor, List.filter_append, h]

theorem countInquiriesFor_resolve_self (ns : String) (st : Store) (addr : String) :
    countInquiriesFor (resolveInquiry ns st addr).2 addr =
      if countInquiriesFor st addr = 0 then 1 else countInquiriesFor st addr := by
  unfold resolveInquiry
  cases hf : st.inquiries.find? (fun i => i.primary_email_address == addr) with
  | some inq =>
      have hmem := List.mem_of_find?_eq_some hf
      have hp := List.find?_some hf
      have hpos : 0 < countInquiriesFor st addr := by
        have : inq ∈ st.inquiries.filter (fun i => i.primary_email_address == addr) :=
          List.mem_filter.2 ⟨hmem, hp⟩
        have := List.length_pos.2 (List.ne_nil_of_mem this)
        simpa [countInquiriesFor] using this
      rw [if_neg (by omega)]
  | none =>
      have hall := List.find?_eq_none.1 hf
      have hzero : countInquiriesFor st addr = 0 := by
        simp only [countInquiriesFor, List.length_eq_zero]
        refine List.filter_eq_nil_iff.2 ?_
        intro i hi
        simpa using hall i hi
      rw [if_pos hzero]
      simp only [countInquiriesFor, List.filter_append, List.length_append] at hzero ⊢
      rw [hzero]
      simp

theorem countInquiriesFor_resolveAll_preserve (ns addr : String) :
    ∀ (addrs : List String) (st : Store),
      countInquiriesFor st addr = 1 →
      countInquiriesFor (resolveAll ns st addrs) addr = 1 := by
  intro addrs
  induction addrs with
  | nil => intro st h; exact h
  | cons a rest ih =>
      intro st h
      have hstep : countInquiriesFor (resolveInquiry ns st a).2 addr = 1 := by
        cases ha : a == addr with
        | false => rw [countInquiriesFor_resolve_ne ns st a addr ha]; exact h
        | true =>
            have : a = addr := by simpa using ha
            subst this
            rw [countInquiriesFor_resolve_self ns st a, h]
            simp
      exact ih _ hstep

/-- Claim C9 (amended): the schema does not make the primary identity
unique (see the counterexample); at-most-one-Inquiry-per-identity is
maintained only by the resolver's look-up-before-create, so
sequentially resolving any list of sender/chat identities against a
store holding at most one Inquiry for a given identity leaves at most
one — and, once that identity has been ingested, exactly one. -/
theorem inquiry_identity_unique_sequential (ns addr : String)
    (addrs : List String) (st : Store)
    (h : countInquiriesFor st addr ≤ 1) :
    countInquiriesFor (resolveAll ns st addrs) addr ≤ 1 ∧
    (addr ∈ addrs → countInquiriesFor (resolveAll ns st addrs) addr = 1) := by
  induction addrs generalizing st with
  | nil =>
      refine ⟨h, ?_⟩
      intro hm
      simp at hm
  | cons a rest ih =>
      have hstep : countInquiriesFor (resolveInquiry ns st a).2 addr ≤ 1 := by
        cases ha : a == addr with
        | false => rw [countInquiriesFor_resolve_ne ns st a addr ha]; exact h
        | true =>
            have : a = addr := by simpa using ha
            subst this
            rw [countInquiriesFor_resolve_self ns st a]
            split_ifs <;> omega
      refine ⟨(ih _ hstep).1, ?_⟩
      intro hm
      rcases List.mem_cons.1 hm with hm | hm
      · subst hm
        have hone : countInquiriesFor (resolveInquiry ns st addr).2 addr = 1 := by
          rw [countInquiriesFor_resolve_self ns st addr]
          split_ifs with h0
          · rfl
          · omega
        exact countInquiriesFor_resolveAll_preserve ns addr rest _ hone
      · exact (ih _ hstep).2 hm

/-- Witness for `inquiry_identity_unique_sequential`: resolving the
sequence `a@x, b@y, a@x` against an empty store leaves exactly one
Inquiry for `a@x`. -/
theorem inquiry_identity_unique_sequential_witness :
    countInquiriesFor
        { inquiries := [], emails := [], extracted := [], nextInquiryId := 0 }
        "a@x" ≤ 1 ∧
    "a@x" ∈ ["a@x", "b@y", "a@x"] ∧
    countInquiriesFor
        (resolveAll "new"
          { inquiries := [], emails := [], extracted := [], nextInquiryId := 0 }
          ["a@x", "b@y", "a@x"]) "a@x" = 1 := by
  refine ⟨by decide, by decide, ?_⟩
  exact (inquiry_identity_unique_sequential "new" "a@x" ["a@x", "b@y", "a@x"]
    { inquiries := [], emails := [], extracted := [], nextInquiryId := 0 }
    (by decide)).2 (by decide)

/-! ## Lemmas about the email ingestion handler -/

theorem resolveInquiry_emails (ns : String) (st : Store) (a : String) :
    (resolveInquiry ns st a).2.emails = st.emails := by
  unfold resolveInquiry
  cases st.inquiries.find? (fun i => i.primary_email_address == a) <;> rfl

theorem resolveInquiry_extracted (ns : String) (st : Store) (a : String) :
    (resolveInquiry ns st a).2.extracted = st.extracted := by
  unfold resolveInquiry
  cases st.inquiries.find? (fun i => i.primary_email_address == a) <;> rfl

theorem upsertExtracted_emails (st : Store) (io : Option InquiryRow)
    (d : FieldMap) (s : Option String) :
    (upsertExtracted st io d s).emails = st.emails := by
  unfold upsertExtracted
  split
  · rfl
  · split
    · rfl
    · split <;> rfl

theorem upsertExtracted_inquiries (st : Store) (io : Option InquiryRow)
    (d : FieldMap) (s : Option String) :
    (upsertExtracted st io d s).inquiries = st.inquiries := by
  unfold upsertExtracted
  split
  · rfl
  · split
    · rfl
    · split <;> rfl

theorem markFailedCommit_extracted (st : Store) (r : EmailRow) :
    (markFailedCommit st r).extracted = st.extracted := by
  unfold markFailedCommit
  split
  · rfl
  · split <;> rfl

theorem markFailedCommit_inquiries (st : Store) (r : EmailRow) :
    (markFailedCommit st r).inquiries = st.inquiries := by
  unfold markFailedCommit
  split
  · rfl
  · split <;> rfl

theorem markFailedCommit_emails (st : Store) (r : EmailRow) :
    (markFailedCommit st r).emails = st.emails ∨
      (markFailedCommit st r).emails = st.emails ++ [r] := by
  unfold markFailedCommit
  split
  · exact Or.inr rfl
  · split
    · exact Or.inr rfl
    · exact Or.inl rfl

theorem map_graphId_finalize (l : List EmailRow) (gid : String) (now : Nat) :
    ((l.map (fun e =>
        if e.graph_id == gid then
          { e with processing_status := "processed", processed_at := some now,
                   processing_error := none }
        else e)).map (fun e => e.graph_id)) = l.map (fun e => e.graph_id) := by
  rw [List.map_map]
  refine List.map_congr_left ?_
  intro e _
  simp only [Function.comp_apply]
  split <;> rfl

theorem map_finalize_of_not_exists (l : List EmailRow) (gid : String) (now : Nat)
    (h : ∀ e ∈ l, (e.graph_id == gid) = false) :
    (l.map (fun e =>
        if e.graph_id == gid then
          { e with processing_status := "processed", processed_at := some now,
                   processing_error := none }
        else e)) = l := by
  calc (l.map (fun e =>
          if e.graph_id == gid then
            { e with processing_status := "processed", processed_at := some now,
                     processing_error := none }
          else e))
      = l.map id := List.map_congr_left (fun e he => by simp [h e he])
    _ = l := List.map_id l

theorem countEmails_eq_countP (st : Store) (gid : String) :
    countEmails st gid =
      (st.emails.map (fun e => e.graph_id)).countP (fun g => g == gid) := by
  rw [List.countP_map]
  simp [countEmails, List.countP_eq_length_filter]
  rfl

theorem emailExists_iff (st : Store) (gid : String) :
    emailExists st gid = true ↔ ∃ e ∈ st.emails, e.graph_id = gid := by
  simp [emailExists, List.any_eq_true]

/-- On the success path (no race, no commit failure), the persistence
phase appends exactly one `emails` row, with our `graph_id`. -/
theorem emailPersist_success_graph_ids (st : Store) (now : Nat) (gid : String)
    (summary : EmailSummary) (det : EmailDetails) (intent : String)
    (extraction : FieldMap × Option String) (effs : List Effect) :
    ((emailPersist st now gid summary det intent extraction none false effs).store.emails.map
        (fun e => e.graph_id))
      = st.emails.map (fun e => e.graph_id) ++ [gid] := by
  obtain ⟨bc, sa, sn⟩ := det
  cases sa with
  | none =>
      simp [emailPersist, upsertExtracted_emails, List.map_append,
        map_graphId_finalize]
      intro a _
      split <;> rfl
  | some addr =>
      simp [emailPersist, upsertExtracted_emails, resolveInquiry_emails,
        List.map_append, map_graphId_finalize]
      intro a _
      split <;> rfl

theorem emailPersist_success_result (st : Store) (now : Nat) (gid : String)
    (summary : EmailSummary) (det : EmailDetails) (intent : String)
    (extraction : FieldMap × Option String) (effs : List Effect) :
    ∃ oi, (emailPersist st now gid summary det intent extraction none false effs).result
        = .success oi :=
  ⟨_, rfl⟩

/-- Claim C4: running the email ingestion handler twice with the same
provider message id leaves exactly one `emails` row; the second run
returns a skipped result (not an exception) and changes nothing; and a
unique-constraint violation raised by a concurrent insert of the same
id is likewise answered with a skipped result rather than a failure. -/
theorem email_ingestion_idempotent (st : Store) (now1 now2 : Nat)
    (summary : EmailSummary) (gid : String) (intent : String)
    (det : EmailDetails) (extraction : FieldMap × Option String) (r : EmailRow)
    (hid : summary.id = some gid)
    (hnew : emailExists st gid = false)
    (hr : r.graph_id = gid) :
    countEmails
        (handle_process_single_email st now1 summary intent (some det)
          extraction none false).store gid = 1 ∧
    (∃ oi, (handle_process_single_email st now1 summary intent (some det)
          extraction none false).result = .success oi) ∧
    (handle_process_single_email
        (handle_process_single_email st now1 summary intent (some det)
          extraction none false).store
        now2 summary intent (some det) extraction none false).result
      = .skipped "Email already processed or processing" ∧
    (handle_process_single_email
        (handle_process_single_email st now1 summary intent (some det)
          extraction none false).store
        now2 summary intent (some det) extraction none false).store
      = (handle_process_single_email st now1 summary intent (some det)
          extraction none false).store ∧
    (handle_process_single_email st now1 summary intent (some det) extraction
        (some r) false).result
      = .skipped "Duplicate entry detected (IntegrityError)" := by
  have hstep :
      handle_process_single_email st now1 summary intent (some det) extraction none false
        = emailPersist st now1 gid summary det intent extraction none false
            [.fetchDetails gid, .extractData, .fetchAttachments gid] := by
    simp [handle_process_single_email, hid, hnew]
  have hall : ∀ e ∈ st.emails, (e.graph_id == gid) = false := by
    intro e he
    have := List.any_eq_false.1 hnew e he
    simpa using this
  have hids :
      ((handle_process_single_email st now1 summary intent (some det) extraction
          none false).store.emails.map (fun e => e.graph_id))
        = st.emails.map (fun e => e.graph_id) ++ [gid] := by
    rw [hstep]
    exact emailPersist_success_graph_ids st now1 gid summary det intent extraction _
  have hcount :
      countEmails
        (handle_process_single_email st now1 summary intent (some det)
          extraction none false).store gid = 1 := by
    rw [countEmails_eq_countP, hids, List.countP_append]
    have h0 : (st.emails.map (fun e => e.graph_id)).countP (fun g => g == gid) = 0 := by
      refine List.countP_eq_zero.2 ?_
      intro g hg
      obtain ⟨e, he, rfl⟩ := List.mem_map.1 hg
      simp [hall e he]
    rw [h0]
    simp
  have hexists :
      emailExists
        (handle_process_single_email st now1 summary intent (some det)
          extraction none false).store gid = true := by
    rw [emailExists_iff]
    have hmem : gid ∈ (handle_process_single_email st now1 summary intent (some det)
        extraction none false).store.emails.map (fun e => e.graph_id) := by
      rw [hids]
      simp
    obtain ⟨e, he, hge⟩ := List.mem_map.1 hmem
    exact ⟨e, he, hge⟩
  have hsecond :
      handle_process_single_email
        (handle_process_single_email st now1 summary intent (some det) extraction
          none false).store now2 summary intent (some det) extraction none false
      = { result := .skipped "Email already processed or processing",
          store := (handle_process_single_email st now1 summary intent (some det)
            extraction none false).store,
          effects := [.fetchDetails gid, .extractData, .fetchAttachments gid] } := by
    generalize hS : (handle_process_single_email st now1 summary intent (some det)
      extraction none false).store = S at hexists ⊢
    simp only [handle_process_single_email, hid]
    rw [if_pos hexists]
  refine ⟨hcount, ?_, ?_, ?_, ?_⟩
  · rw [hstep]
    exact emailPersist_success_result st now1 gid summary det intent extraction _
  · rw [hsecond]
  · rw [hsecond]
  · have hraced :
        handle_process_single_email st now1 summary intent (some det) extraction
          (some r) false
          = emailPersist st now1 gid summary det intent extraction (some r) false
              [.fetchDetails gid, .extractData, .fetchAttachments gid] := by
      simp [handle_process_single_email, hid, hnew]
    rw [hraced]
    have hvis : emailExists { st with emails := st.emails ++ [r] } gid = true := by
      rw [emailExists_iff]
      exact ⟨r, by simp, hr⟩
    simp only [emailPersist]
    rw [if_pos hvis]

/-- Witness for `email_ingestion_idempotent` on an empty store. -/
theorem email_ingestion_idempotent_witness :
    ({ id := some "g1", subject := none, bodyPreview := none,
       receivedAt := none : EmailSummary }).id = some "g1" ∧
    emailExists { inquiries := [], emails := [], extracted := [], nextInquiryId := 1 }
      "g1" = false ∧
    (handle_process_single_email
        (handle_process_single_email
          { inquiries := [], emails := [], extracted := [], nextInquiryId := 1 }
          3 { id := some "g1", subject := none, bodyPreview := none, receivedAt := none }
          "inquiry"
          (some { bodyContent := "b", senderAddress := some "a@x", senderName := none })
          ([("first_name", some "Ann")], some "regex") none false).store
        4 { id := some "g1", subject := none, bodyPreview := none, receivedAt := none }
        "inquiry"
        (some { bodyContent := "b", senderAddress := some "a@x", senderName := none })
        ([("first_name", some "Ann")], some "regex") none false).result
      = .skipped "Email already processed or processing" := by
  refine ⟨rfl, by decide, ?_⟩
  exact (email_ingestion_idempotent
    { inquiries := [], emails := [], extracted := [], nextInquiryId := 1 }
    3 4 { id := some "g1", subject := none, bodyPreview := none, receivedAt := none }
    "g1" "inquiry"
    { bodyContent := "b", senderAddress := some "a@x", senderName := none }
    ([("first_name", some "Ann")], some "regex")
    { graph_id := "g1", subject := none, sender_address := none, sender_name := none,
      intent := none, inquiry_id := none, processing_status := "processed",
      processing_error := none, processed_at := none, received_at := none }
    rfl (by decide) rfl).2.2.1

/-- Counterexample to claim C5 as stated: with an injected failure at
the main commit, the handler does not leave the store unchanged — after
rolling the transaction back it commits a separate write that marks the
`emails` row `failed` (`app/background_tasks.py` lines 240-253), so an
Email row without its ExtractedData is observable afterwards. -/
theorem email_txn_rollback_counterexample :
    (handle_process_single_email
        { inquiries := [{ id := 1, primary_email_address := "ann@x.com",
                          status := "new", updated_at := none }],
          emails := [], extracted := [], nextInquiryId := 2 }
        7 { id := some "g1", subject := some "Trip", bodyPreview := none,
            receivedAt := some 5 }
        "inquiry"
        (some { bodyContent := "b", senderAddress := some "ann@x.com",
                senderName := some "Ann" })
        ([("first_name", some "Ann")], some "regex") none true).result
      = .raised "DB Error" ∧
    (handle_process_single_email
        { inquiries := [{ id := 1, primary_email_address := "ann@x.com",
                          status := "new", updated_at := none }],
          emails := [], extracted := [], nextInquiryId := 2 }
        7 { id := some "g1", subject := some "Trip", bodyPreview := none,
            receivedAt := some 5 }
        "inquiry"
        (some { bodyContent := "b", senderAddress := some "ann@x.com",
                senderName := some "Ann" })
        ([("first_name", some "Ann")], some "regex") none true).store
      ≠ { inquiries := [{ id := 1, primary_email_address := "ann@x.com",
                          status := "new", updated_at := none }],
          emails := [], extracted := [], nextInquiryId := 2 } ∧
    (handle_process_single_email
        { inquiries := [{ id := 1, primary_email_address := "ann@x.com",
                          status := "new", updated_at := none }],
          emails := [], extracted := [], nextInquiryId := 2 }
        7 { id := some "g1", subject := some "Trip", bodyPreview := none,
            receivedAt := some 5 }
        "inquiry"
        (some { bodyContent := "b", senderAddress := some "ann@x.com",
                senderName := some "Ann" })
        ([("first_name", some "Ann")], some "regex") none true).store.emails.length
      = 1 ∧
    (handle_process_single_email
        { inquiries := [{ id := 1, primary_email_address := "ann@x.com",
                          status := "new", updated_at := none }],
          emails := [], extracted := [], nextInquiryId := 2 }
        7 { id := some "g1", subject := some "Trip", bodyPreview := none,
            receivedAt := some 5 }
        "inquiry"
        (some { bodyContent := "b", senderAddress := some "ann@x.com",
                senderName := some "Ann" })
        ([("first_name", some "Ann")], some "regex") none true).store.extracted
      = [] := by
  decide

/-- Claim C5 (amended): when the persistence step's commit raises, the
exception surfaces to the worker loop and the transaction's
ExtractedData and Inquiry writes are rolled back (those tables are
unchanged), but the handler then attempts a separate commit that marks
the `emails` row `failed`; so the store afterwards is either unchanged
or extended by exactly that one failed Email row (with no
ExtractedData) — it is not guaranteed to be left unchanged. -/
theorem email_txn_failure_behavior (st : Store) (now : Nat)
    (summary : EmailSummary) (gid : String) (intent : String)
    (det : EmailDetails) (extraction : FieldMap × Option String)
    (hid : summary.id = some gid)
    (hnew : emailExists st gid = false) :
    (handle_process_single_email st now summary intent (some det) extraction
        none true).result = .raised "DB Error" ∧
    (handle_process_single_email st now summary intent (some det) extraction
        none true).store.extracted = st.extracted ∧
    (handle_process_single_email st now summary intent (some det) extraction
        none true).store.inquiries = st.inquiries ∧
    ((handle_process_single_email st now summary intent (some det) extraction
        none true).store.emails = st.emails ∨
      ∃ row, (handle_process_single_email st now summary intent (some det)
          extraction none true).store.emails = st.emails ++ [row] ∧
        row.graph_id = gid ∧ row.processing_status = "failed" ∧
        row.processing_error = some "DB Error") := by
  have hstep :
      handle_process_single_email st now summary intent (some det) extraction none true
        = emailPersist st now gid summary det intent extraction none true
            [.fetchDetails gid, .extractData, .fetchAttachments gid] := by
    simp [handle_process_single_email, hid, hnew]
  rw [hstep]
  obtain ⟨bc, sa, sn⟩ := det
  cases sa with
  | none =>
      exact ⟨rfl, rfl, rfl, Or.inr ⟨_, rfl, rfl, rfl, rfl⟩⟩
  | some addr =>
      have key :
          (emailPersist st now gid summary ⟨bc, some addr, sn⟩ intent extraction
              none true [.fetchDetails gid, .extractData, .fetchAttachments gid]).store
            = markFailedCommit st
                { graph_id := gid, subject := summary.subject,
                  sender_address := some addr, sender_name := sn,
                  intent := some intent,
                  inquiry_id := some (resolveInquiry "new" st addr).1.id,
                  processing_status := "failed",
                  processing_error := some "DB Error",
                  processed_at := some now, received_at := summary.receivedAt } := rfl
      refine ⟨rfl, ?_, ?_, ?_⟩
      · rw [key]
        exact markFailedCommit_extracted st _
      · rw [key]
        exact markFailedCommit_inquiries st _
      · rw [key]
        rcases markFailedCommit_emails st
          { graph_id := gid, subject := summary.subject,
            sender_address := some addr, sender_name := sn,
            intent := some intent,
            inquiry_id := some (resolveInquiry "new" st addr).1.id,
            processing_status := "failed",
            processing_error := some "DB Error",
            processed_at := some now, received_at := summary.receivedAt } with h | h
        · exact Or.inl h
        · exact Or.inr ⟨_, h, rfl, rfl, rfl⟩

/-- Witness for `email_txn_failure_behavior`. -/
theorem email_txn_failure_behavior_witness :
    ({ id := some "g2", subject := none, bodyPreview := none,
       receivedAt := none : EmailSummary }).id = some "g2" ∧
    emailExists { inquiries := [], emails := [], extracted := [], nextInquiryId := 1 }
      "g2" = false ∧
    (handle_process_single_email
        { inquiries := [], emails := [], extracted := [], nextInquiryId := 1 }
        5 { id := some "g2", subject := none, bodyPreview := none, receivedAt := none }
        "inquiry"
        (some { bodyContent := "b", senderAddress := none, senderName := none })
        ([], none) none true).result = .raised "DB Error" := by
  refine ⟨rfl, by decide, ?_⟩
  exact (email_txn_failure_behavior
    { inquiries := [], emails := [], extracted := [], nextInquiryId := 1 }
    5 { id := some "g2", subject := none, bodyPreview := none, receivedAt := none }
    "g2" "inquiry"
    { bodyContent := "b", senderAddress := none, senderName := none }
    ([], none) rfl (by decide)).1

/-- Counterexample to claim C8 as stated: invoked on a message id whose
`emails` row already exists, the handler still performs the provider
fetches — `fetch_email_details` and `fetch_attachments_list` (and the
extraction call) precede the duplicate check in
`app/background_tasks.py` (fetches at lines 74-97, check at line 106). -/
theorem duplicate_fetch_counterexample :
    (handle_process_single_email
        { inquiries := [],
          emails := [{ graph_id := "g1", subject := none, sender_address := none,
                       sender_name := none, intent := none, inquiry_id := none,
                       processing_status := "processed", processing_error := none,
                       processed_at := some 1, received_at := none }],
          extracted := [], nextInquiryId := 1 }
        9 { id := some "g1", subject := none, bodyPreview := none, receivedAt := none }
        "inquiry"
        (some { bodyContent := "b", senderAddress := some "s@x", senderName := none })
        ([], none) none false).result
      = .skipped "Email already processed or processing" ∧
    Effect.fetchDetails "g1" ∈
      (handle_process_single_email
        { inquiries := [],
          emails := [{ graph_id := "g1", subject := none, sender_address := none,
                       sender_name := none, intent := none, inquiry_id := none,
                       processing_status := "processed", processing_error := none,
                       processed_at := some 1, received_at := none }],
          extracted := [], nextInquiryId := 1 }
        9 { id := some "g1", subject := none, bodyPreview := none, receivedAt := none }
        "inquiry"
        (some { bodyContent := "b", senderAddress := some "s@x", senderName := none })
        ([], none) none false).effects ∧
    Effect.fetchAttachments "g1" ∈
      (handle_process_single_email
        { inquiries := [],
          emails := [{ graph_id := "g1", subject := none, sender_address := none,
                       sender_name := none, intent := none, inquiry_id := none,
                       processing_status := "processed", processing_error := none,
                       processed_at := some 1, received_at := none }],
          extracted := [], nextInquiryId := 1 }
        9 { id := some "g1", subject := none, bodyPreview := none, receivedAt := none }
        "inquiry"
        (some { bodyContent := "b", senderAddress := some "s@x", senderName := none })
        ([], none) none false).effects := by
  decide

/-- Claim C8 (amended): on a message id whose `emails` row already
exists, the handler returns the skipped/duplicate result and leaves
the store unchanged (no insert, no enqueue) — but only after fetching
the message details, running extraction and fetching the attachments
list; the provider fetches are not avoided. -/
theorem duplicate_skip_after_fetch (st : Store) (now : Nat)
    (summary : EmailSummary) (gid : String) (intent : String)
    (det : EmailDetails) (extraction : FieldMap × Option String)
    (raced : Option EmailRow) (commitRaises : Bool)
    (hid : summary.id = some gid)
    (hex : emailExists st gid = true) :
    (handle_process_single_email st now summary intent (some det) extraction
        raced commitRaises).result = .skipped "Email already processed or processing" ∧
    (handle_process_single_email st now summary intent (some det) extraction
        raced commitRaises).store = st ∧
    (handle_process_single_email st now summary intent (some det) extraction
        raced commitRaises).effects
      = [.fetchDetails gid, .extractData, .fetchAttachments gid] := by
  refine ⟨?_, ?_, ?_⟩ <;> simp [handle_process_single_email, hid, hex]

/-- Witness for `duplicate_skip_after_fetch`. -/
theorem duplicate_skip_after_fetch_witness :
    ({ id := some "g1", subject := none, bodyPreview := none,
       receivedAt := none : EmailSummary }).id = some "g1" ∧
    emailExists
      { inquiries := [],
        emails := [{ graph_id := "g1", subject := none, sender_address := none,
                     sender_name := none, intent := none, inquiry_id := none,
                     processing_status := "processed", processing_error := none,
                     processed_at := some 1, received_at := none }],
        extracted := [], nextInquiryId := 1 } "g1" = true ∧
    (handle_process_single_email
        { inquiries := [],
          emails := [{ graph_id := "g1", subject := none, sender_address := none,
                       sender_name := none, intent := none, inquiry_id := none,
                       processing_status := "processed", processing_error := none,
                       processed_at := some 1, received_at := none }],
          extracted := [], nextInquiryId := 1 }
        9 { id := some "g1", subject := none, bodyPreview := none, receivedAt := none }
        "inquiry"
        (some { bodyContent := "b", senderAddress := some "s@x", senderName := none })
        ([], none) none false).store
      = { inquiries := [],
          emails := [{ graph_id := "g1", subject := none, sender_address := none,
                       sender_name := none, intent := none, inquiry_id := none,
                       processing_status := "processed", processing_error := none,
                       processed_at := some 1, received_at := none }],
          extracted := [], nextInquiryId := 1 } := by
  refine ⟨rfl, by decide, ?_⟩
  exact (duplicate_skip_after_fetch
    { inquiries := [],
      emails := [{ graph_id := "g1", subject := none, sender_address := none,
                   sender_name := none, intent := none, inquiry_id := none,
                   processing_status := "processed", processing_error := none,
                   processed_at := some 1, received_at := none }],
      extracted := [], nextInquiryId := 1 }
    9 { id := some "g1", subject := none, bodyPreview := none, receivedAt := none }
    "g1" "inquiry"
    { bodyContent := "b", senderAddress := some "s@x", senderName := none }
    ([], none) none false rfl (by decide)).2.1

/-- Claim C10: when the fetched details carry no sender address, the
handler still succeeds: it persists the Email row with
`processing_status = 'processed'` and a null `inquiry_id`, creates no
Inquiry and no ExtractedData (the extracted fields are discarded), and
returns a success result with a null inquiry id. -/
theorem email_without_sender_succeeds (st : Store) (now : Nat)
    (summary : EmailSummary) (gid : String) (intent : String)
    (det : EmailDetails) (extraction : FieldMap × Option String)
    (hid : summary.id = some gid)
    (hsa : det.senderAddress = none)
    (hnew : emailExists st gid = false) :
    (handle_process_single_email st now summary intent (some det) extraction
        none false).result = .success none ∧
    (handle_process_single_email st now summary intent (some det) extraction
        none false).store.inquiries = st.inquiries ∧
    (handle_process_single_email st now summary intent (some det) extraction
        none false).store.extracted = st.extracted ∧
    (handle_process_single_email st now summary intent (some det) extraction
        none false).store.emails
      = st.emails ++
        [{ graph_id := gid, subject := summary.subject, sender_address := none,
           sender_name := det.senderName, intent := some intent, inquiry_id := none,
           processing_status := "processed", processing_error := none,
           processed_at := some now, received_at := summary.receivedAt }] := by
  have hstep :
      handle_process_single_email st now summary intent (some det) extraction none false
        = emailPersist st now gid summary det intent extraction none false
            [.fetchDetails gid, .extractData, .fetchAttachments gid] := by
    simp [handle_process_single_email, hid, hnew]
  have hall : ∀ e ∈ st.emails, (e.graph_id == gid) = false := by
    intro e he
    have := List.any_eq_false.1 hnew e he
    simpa using this
  rw [hstep]
  obtain ⟨bc, sa, sn⟩ := det
  replace hsa : sa = none := hsa
  subst hsa
  refine ⟨rfl, rfl, rfl, ?_⟩
  have key :
      (emailPersist st now gid summary ⟨bc, none, sn⟩ intent extraction
          none false [.fetchDetails gid, .extractData, .fetchAttachments gid]).store.emails
        = (st.emails ++
            [({ graph_id := gid, subject := summary.subject, sender_address := none,
                sender_name := sn, intent := some intent, inquiry_id := none,
                processing_status := "processing", processing_error := none,
                processed_at := none, received_at := summary.receivedAt } : EmailRow)]).map
          (fun e =>
            if e.graph_id == gid then
              { e with processing_status := "processed", processed_at := some now,
                       processing_error := none }
            else e) := rfl
  rw [key, List.map_append, map_finalize_of_not_exists st.emails gid now hall]
  simp

/-- Witness for `email_without_sender_succeeds`. -/
theorem email_without_sender_succeeds_witness :
    ({ id := some "g3", subject := none, bodyPreview := none,
       receivedAt := none : EmailSummary }).id = some "g3" ∧
    ({ bodyContent := "b", senderAddress := none,
       senderName := none : EmailDetails }).senderAddress = none ∧
    emailExists { inquiries := [], emails := [], extracted := [], nextInquiryId := 1 }
      "g3" = false ∧
    (handle_process_single_email
        { inquiries := [], emails := [], extracted := [], nextInquiryId := 1 }
        2 { id := some "g3", subject := none, bodyPreview := none, receivedAt := none }
        "inquiry"
        (some { bodyContent := "b", senderAddress := none, senderName := none })
        ([("first_name", some "Zoe")], some "ai") none false).result
      = .success none := by
  refine ⟨rfl, rfl, by decide, ?_⟩
  exact (email_without_sender_succeeds
    { inquiries := [], emails := [], extracted := [], nextInquiryId := 1 }
    2 { id := some "g3", subject := none, bodyPreview := none, receivedAt := none }
    "g3" "inquiry"
    { bodyContent := "b", senderAddress := none, senderName := none }
    ([("first_name", some "Zoe")], some "ai") rfl rfl (by decide)).1

/-! ## The claiming protocol: no double-claims, `min(N, M)` claims,
`(scheduled_for, id)` order -/

theorem claimKeyLt_trans {a b c : PendingTask}
    (h1 : claimKeyLt a b = true) (h2 : claimKeyLt b c = true) :
    claimKeyLt a c = true := by
  simp only [claimKeyLt, Bool.or_eq_true, Bool.and_eq_true, decide_eq_true_eq,
    beq_iff_eq] at h1 h2 ⊢
  omega

theorem claimKeyLt_total {a b : PendingTask} (h : a.id ≠ b.id) :
    claimKeyLt a b = true ∨ claimKeyLt b a = true := by
  simp only [claimKeyLt, Bool.or_eq_true, Bool.and_eq_true, decide_eq_true_eq,
    beq_iff_eq]
  omega

theorem claimSelect_eq_none_iff (now : Nat) (l : List PendingTask) :
    claimSelect now l = none ↔ ∀ t ∈ l, taskDue now t = false := by
  induction l with
  | nil => simp [claimSelect]
  | cons a rest ih =>
      simp only [claimSelect]
      by_cases ha : taskDue now a = true
      · rw [if_pos ha]
        constructor
        · intro h
          exfalso
          split at h
          · simp at h
          · split at h
            · simp at h
            · simp at h
        · intro h
          have := h a (List.mem_cons_self a rest)
          rw [ha] at this
          simp at this
      · rw [if_neg ha, ih]
        constructor
        · intro h t ht
          rcases List.mem_cons.1 ht with rfl | ht
          · simpa using ha
          · exact h t ht
        · intro h t ht
          exact h t (List.mem_cons_of_mem a ht)

theorem claimSelect_mem (now : Nat) (l : List PendingTask) (t : PendingTask)
    (h : claimSelect now l = some t) : t ∈ l ∧ taskDue now t = true := by
  induction l generalizing t with
  | nil => simp [claimSelect] at h
  | cons a rest ih =>
      simp only [claimSelect] at h
      by_cases ha : taskDue now a = true
      · rw [if_pos ha] at h
        split at h
        · obtain rfl : a = t := by simpa using h
          exact ⟨List.mem_cons_self _ _, ha⟩
        · next m hres =>
            split at h
            · obtain rfl : a = t := by simpa using h
              exact ⟨List.mem_cons_self _ _, ha⟩
            · obtain rfl : m = t := by simpa using h
              obtain ⟨hm, hd⟩ := ih _ hres
              exact ⟨List.mem_cons_of_mem a hm, hd⟩
      · rw [if_neg ha] at h
        obtain ⟨hm, hd⟩ := ih _ h
        exact ⟨List.mem_cons_of_mem a hm, hd⟩

theorem claimSelect_min (now : Nat) (l : List PendingTask)
    (hids : (l.map PendingTask.id).Nodup) :
    ∀ t, claimSelect now l = some t →
      ∀ u ∈ l, taskDue now u = true → u = t ∨ claimKeyLt t u = true := by
  induction l with
  | nil => intro t ht; simp [claimSelect] at ht
  | cons a rest ih =>
      simp only [List.map_cons, List.nodup_cons] at hids
      obtain ⟨haid, hrest⟩ := hids
      intro t h u hu hdu
      simp only [claimSelect] at h
      by_cases ha : taskDue now a = true
      · rw [if_pos ha] at h
        split at h
        · next hres =>
            obtain rfl : a = t := by simpa using h
            rcases List.mem_cons.1 hu with rfl | hu
            · exact Or.inl rfl
            · exfalso
              have hf := (claimSelect_eq_none_iff now rest).1 hres u hu
              rw [hdu] at hf
              simp at hf
        · next m hres =>
            obtain ⟨hmmem, _⟩ := claimSelect_mem now rest m hres
            have haneqm : a.id ≠ m.id := fun he =>
              haid (he ▸ List.mem_map_of_mem PendingTask.id hmmem)
            split at h
            · next hk =>
                obtain rfl : a = t := by simpa using h
                rcases List.mem_cons.1 hu with rfl | hu
                · exact Or.inl rfl
                · rcases ih hrest m hres u hu hdu with rfl | hlt
                  · exact Or.inr hk
                  · exact Or.inr (claimKeyLt_trans hk hlt)
            · next hk =>
                obtain rfl : m = t := by simpa using h
                rcases List.mem_cons.1 hu with rfl | hu
                · refine Or.inr ?_
                  rcases claimKeyLt_total (fun he => haneqm he.symm) with h1 | h1
                  · exact h1
                  · exact absurd h1 hk
                · exact ih hrest _ hres u hu hdu
      · rw [if_neg ha] at h
        rcases List.mem_cons.1 hu with rfl | hu
        · rw [hdu] at ha
          exact absurd rfl ha
        · exact ih hrest t h u hu hdu

theorem markClaimed_map_id (l : List PendingTask) (tid : Nat) :
    (markClaimed l tid).map PendingTask.id = l.map PendingTask.id := by
  unfold markClaimed
  rw [List.map_map]
  refine List.map_congr_left ?_
  intro u _
  simp only [Function.comp_apply]
  split <;> rfl

theorem due_markClaimed (now : Nat) (l : List PendingTask) (tid : Nat)
    (u : PendingTask) (hu : u ∈ markClaimed l tid) (hdu : taskDue now u = true) :
    u ∈ l ∧ u.id ≠ tid := by
  unfold markClaimed at hu
  obtain ⟨w, hw, rfl⟩ := List.mem_map.1 hu
  by_cases h : (w.id == tid) = true
  · rw [if_pos h] at hdu
    simp [taskDue, claimUpdate] at hdu
  · rw [if_neg h] at hdu ⊢
    have hne : (w.id == tid) = false := by simpa using h
    exact ⟨hw, by simpa [beq_eq_false_iff_ne] using hne⟩

theorem countDue_eq_countP (now : Nat) (l : List PendingTask) :
    countDue now l = l.countP (taskDue now) := by
  simp [countDue, List.countP_eq_length_filter]

theorem countP_markClaimed_aux (now : Nat) (t : PendingTask) :
    ∀ l : List PendingTask, (l.map PendingTask.id).Nodup → t ∈ l →
      taskDue now t = true →
      l.countP (fun u => taskDue now (if u.id == t.id then claimUpdate u else u))
        = l.countP (taskDue now) - 1 := by
  intro l
  induction l with
  | nil => intro _ ht _; simp at ht
  | cons a rest ih =>
      intro hids ht hdue
      simp only [List.map_cons, List.nodup_cons] at hids
      obtain ⟨haid, hrest⟩ := hids
      rw [List.countP_cons, List.countP_cons]
      rcases List.mem_cons.1 ht with rfl | ht
      · have hz : rest.countP
            (fun u => taskDue now (if u.id == t.id then claimUpdate u else u))
            = rest.countP (taskDue now) := by
          refine List.countP_congr ?_
          intro u hu
          have hne : (u.id == t.id) = false := by
            simp only [beq_eq_false_iff_ne, ne_eq]
            intro he
            exact haid (he ▸ List.mem_map_of_mem PendingTask.id hu)
          simp [hne]
        rw [hz]
        have h1 : taskDue now (if t.id == t.id then claimUpdate t else t) = false := by
          simp [taskDue, claimUpdate]
        rw [h1, hdue]
        simp
      · have hane : (a.id == t.id) = false := by
          simp only [beq_eq_false_iff_ne, ne_eq]
          intro he
          exact haid (he ▸ List.mem_map_of_mem PendingTask.id ht)
        rw [ih hrest ht hdue]
        have hposr : 1 ≤ rest.countP (taskDue now) := by
          have hmem : t ∈ rest.filter (taskDue now) := List.mem_filter.2 ⟨ht, hdue⟩
          have hlen := List.length_pos.2 (List.ne_nil_of_mem hmem)
          rw [List.countP_eq_length_filter]
          omega
        have hfa : taskDue now (if a.id == t.id then claimUpdate a else a)
            = taskDue now a := by
          simp [hane]
        rw [hfa]
        by_cases hda : taskDue now a = true <;> simp [hda] <;> omega

theorem countDue_markClaimed (now : Nat) (l : List PendingTask) (t : PendingTask)
    (hids : (l.map PendingTask.id).Nodup) (ht : t ∈ l)
    (hdue : taskDue now t = true) :
    countDue now (markClaimed l t.id) = countDue now l - 1 := by
  rw [countDue_eq_countP, countDue_eq_countP]
  unfold markClaimed
  rw [List.countP_map]
  have h := countP_markClaimed_aux now t l hids ht hdue
  simpa [Function.comp] using h

theorem claimRound_fst_none (now n : Nat) (store : List PendingTask)
    (h : claimSelect now store = none) : (claimRound now n store).1 = [] := by
  cases n <;> simp [claimRound, h]

theorem claimRound_fst_succ (now n : Nat) (store : List PendingTask)
    (t : PendingTask) (h : claimSelect now store = some t) :
    (claimRound now (n + 1) store).1
      = t :: (claimRound now n (markClaimed store t.id)).1 := by
  simp [claimRound, h]

/-- Claim C1: in a round of `n` worker loops each running the claiming
query against a store whose distinct-id rows hold `M` due pending
tasks, the claimed tasks are pairwise distinct (each task goes to
exactly one claimant), exactly `min(n, M)` tasks are claimed, the
claims happen in strictly increasing `(scheduled_for, id)` order, and
every claimed task was a due pending row of the original store.  Each
claim is atomic because `FOR UPDATE SKIP LOCKED` hides the selected
row from all other claimants until its `processing` update commits, so
a concurrent round is a sequence of these atomic steps. -/
theorem claim_round_exactly_once (now n : Nat) (store : List PendingTask)
    (hids : (store.map PendingTask.id).Nodup) :
    (claimRound now n store).1.length = min n (countDue now store) ∧
    ((claimRound now n store).1.map PendingTask.id).Nodup ∧
    (claimRound now n store).1.Pairwise (fun a b => claimKeyLt a b = true) ∧
    ∀ t ∈ (claimRound now n store).1, t ∈ store ∧ taskDue now t = true := by
  induction n generalizing store with
  | zero =>
      refine ⟨by simp [claimRound], by simp [claimRound], by simp [claimRound], ?_⟩
      intro t ht
      simp [claimRound] at ht
  | succ n ih =>
      cases hsel : claimSelect now store with
      | none =>
          have hcnt : countDue now store = 0 := by
            have hall := (claimSelect_eq_none_iff now store).1 hsel
            rw [countDue_eq_countP]
            refine List.countP_eq_zero.2 ?_
            intro u hu
            simp [hall u hu]
          rw [claimRound_fst_none now (n + 1) store hsel]
          refine ⟨by simp [hcnt], by simp, by simp, ?_⟩
          intro t ht
          simp at ht
      | some t =>
          obtain ⟨htmem, htdue⟩ := claimSelect_mem now store t hsel
          have hids' : ((markClaimed store t.id).map PendingTask.id).Nodup := by
            rw [markClaimed_map_id]
            exact hids
          obtain ⟨ihlen, ihnodup, ihpair, ihmem⟩ := ih (markClaimed store t.id) hids'
          have hcnt' : countDue now (markClaimed store t.id)
              = countDue now store - 1 :=
            countDue_markClaimed now store t hids htmem htdue
          have hpos : 1 ≤ countDue now store := by
            have hmem : t ∈ store.filter (taskDue now) :=
              List.mem_filter.2 ⟨htmem, htdue⟩
            have := List.length_pos.2 (List.ne_nil_of_mem hmem)
            simpa [countDue] using this
          rw [claimRound_fst_succ now n store t hsel]
          refine ⟨?_, ?_, ?_, ?_⟩
          · simp only [List.length_cons, ihlen, hcnt']
            omega
          · simp only [List.map_cons, List.nodup_cons]
            refine ⟨?_, ihnodup⟩
            intro hmem
            obtain ⟨u, hu, huid⟩ := List.mem_map.1 hmem
            obtain ⟨hu', hdu⟩ := ihmem u hu
            exact (due_markClaimed now store t.id u hu' hdu).2 huid
          · refine List.Pairwise.cons ?_ ihpair
            intro u hu
            obtain ⟨hu', hdu⟩ := ihmem u hu
            obtain ⟨humem, huid⟩ := due_markClaimed now store t.id u hu' hdu
            rcases claimSelect_min now store hids t hsel u humem hdu with rfl | h
            · exact absurd rfl huid
            · exact h
          · intro u hu
            rcases List.mem_cons.1 hu with rfl | hu
            · exact ⟨htmem, htdue⟩
            · obtain ⟨hu', hdu⟩ := ihmem u hu
              exact ⟨(due_markClaimed now store t.id u hu' hdu).1, hdu⟩

/-- Witness for `claim_round_exactly_once`: three claimants against a
store with two due pending tasks claim exactly two, in
`(scheduled_for, id)` order. -/
theorem claim_round_exactly_once_witness :
    (([({ id := 2, task_type := "process_single_email", status := "pending",
          scheduled_for := 5, attempts := 0, last_error := none,
          processed_at := none } : PendingTask),
        { id := 1, task_type := "process_single_email", status := "pending",
          scheduled_for := 7, attempts := 0, last_error := none,
          processed_at := none },
        { id := 3, task_type := "poll_all_new_emails", status := "success",
          scheduled_for := 0, attempts := 1, last_error := none,
          processed_at := some 1 }].map PendingTask.id).Nodup) ∧
    (claimRound 10 3
        [({ id := 2, task_type := "process_single_email", status := "pending",
            scheduled_for := 5, attempts := 0, last_error := none,
            processed_at := none } : PendingTask),
          { id := 1, task_type := "process_single_email", status := "pending",
            scheduled_for := 7, attempts := 0, last_error := none,
            processed_at := none },
          { id := 3, task_type := "poll_all_new_emails", status := "success",
            scheduled_for := 0, attempts := 1, last_error := none,
            processed_at := some 1 }]).1.length
      = min 3 (countDue 10
          [({ id := 2, task_type := "process_single_email", status := "pending",
              scheduled_for := 5, attempts := 0, last_error := none,
              processed_at := none } : PendingTask),
            { id := 1, task_type := "process_single_email", status := "pending",
              scheduled_for := 7, attempts := 0, last_error := none,
              processed_at := none },
            { id := 3, task_type := "poll_all_new_emails", status := "success",
              scheduled_for := 0, attempts := 1, last_error := none,
              processed_at := some 1 }]) := by
  refine ⟨by decide, ?_⟩
  exact (claim_round_exactly_once 10 3
    [({ id := 2, task_type := "process_single_email", status := "pending",
        scheduled_for := 5, attempts := 0, last_error := none,
        processed_at := none } : PendingTask),
      { id := 1, task_type := "process_single_email", status := "pending",
        scheduled_for := 7, attempts := 0, last_error := none,
        processed_at := none },
      { id := 3, task_type := "poll_all_new_emails", status := "success",
        scheduled_for := 0, attempts := 1, last_error := none,
        processed_at := some 1 }] (by decide)).1

end BookingDash
